import Mathlib

/-!
Shallow embedding of the `FlightAnalyzer` class of `src/main.py` (pandas flight
performance tracker) and proofs about its reporting methods.

Modelling conventions:
* a loaded dataframe is a `List FlightRec` in row order;
* a numeric cell that may be NaN in pandas is an `Option ℚ` (`none` = NaN);
* `df.groupby(k)` enumerates groups with keys sorted ascending (pandas
  `sort=True` default); `sort_values` is modelled as a stable merge sort on the
  sort column; `mode`, `idxmax` and `mean` follow the documented pandas
  semantics (NaN-skipping means, ascending-sorted modes, first-position idxmax).
-/

namespace FlightTracker

/-- Calendar month names in the order used by the `month_order` list of
`plot_monthly_trends`; `strftime("%B")` produces exactly these names. -/
def monthOrder : List String :=
  ["January", "February", "March", "April", "May", "June",
   "July", "August", "September", "October", "November", "December"]

/-- One row of the loaded CSV.  Delay and distance columns may be missing
(NaN), modelled as `Option ℚ`.  The `time_hour` timestamp enters the analysis
only through its calendar month (`dt.strftime("%B")` at load time), so it is
modelled by the month index `0..11`. -/
structure FlightRec where
  name : String
  origin : String
  dest : String
  hour : Nat
  dep_delay : Option ℚ
  arr_delay : Option ℚ
  distance : Option ℚ
  month : Fin 12
deriving DecidableEq, Repr

/-- Derived column `month_name`: `pd.to_datetime(df["time_hour"]).dt.strftime("%B")`. -/
def month_name (r : FlightRec) : String := monthOrder.getD r.month ""

/-- Derived column `hour_formatted`: `f"{x:02d}:00"` applied to the `hour` column. -/
def hour_formatted (r : FlightRec) : String :=
  (if r.hour < 10 then "0" ++ toString r.hour else toString r.hour) ++ ":00"

/-- Derived column `is_delayed`: `df["dep_delay"] > 15`.  In pandas a NaN
compares `False`, so a missing departure delay yields `false`, not NaN. -/
def is_delayed (r : FlightRec) : Bool :=
  match r.dep_delay with
  | some d => decide (15 < d)
  | none => false

/-- Derived column `total_delay`: `df["dep_delay"] + df["arr_delay"]`; NaN in
either operand propagates to the sum. -/
def total_delay (r : FlightRec) : Option ℚ :=
  match r.dep_delay, r.arr_delay with
  | some d, some a => some (d + a)
  | _, _ => none

/-- Mean of a list of rationals; `none` on the empty list (pandas mean of an
empty series is NaN). -/
def meanQ (xs : List ℚ) : Option ℚ :=
  if xs.isEmpty then none else some (xs.sum / xs.length)

/-- pandas `Series.mean` for a numeric column: NaN entries are skipped; an
all-NaN (or empty) column gives NaN. -/
def colMean (xs : List (Option ℚ)) : Option ℚ := meanQ (xs.filterMap id)

/-- pandas `Series.count` for a numeric column: the number of non-NaN
entries, not the series length. -/
def colCount (xs : List (Option ℚ)) : Nat := (xs.filterMap id).length

/-- The values of `l` that are not in `seen`, deduplicated, in order of first
appearance. -/
def firstOccurrencesFrom {α : Type} [DecidableEq α] (seen : List α) : List α → List α
  | [] => []
  | x :: xs =>
    if x ∈ seen then firstOccurrencesFrom seen xs
    else x :: firstOccurrencesFrom (x :: seen) xs

/-- The distinct values of a list, in order of first appearance: the order in
which a stable group-by first meets each key. -/
def firstOccurrences {α : Type} [DecidableEq α] (l : List α) : List α :=
  firstOccurrencesFrom [] l

theorem mem_firstOccurrencesFrom {α : Type} [DecidableEq α] (a : α) (l : List α) :
    ∀ seen : List α, a ∈ firstOccurrencesFrom seen l ↔ a ∈ l ∧ a ∉ seen := by
  induction l with
  | nil => intro seen; simp [firstOccurrencesFrom]
  | cons x xs ih =>
    intro seen
    rw [firstOccurrencesFrom]
    by_cases hx : x ∈ seen
    · rw [if_pos hx, ih seen]
      constructor
      · rintro ⟨h1, h2⟩; exact ⟨List.mem_cons_of_mem _ h1, h2⟩
      · rintro ⟨h1, h2⟩
        rcases List.mem_cons.mp h1 with rfl | h1
        · exact absurd hx h2
        · exact ⟨h1, h2⟩
    · rw [if_neg hx]
      by_cases hax : a = x
      · subst hax; simp [hx]
      · simp only [List.mem_cons, hax, false_or]
        rw [ih (x :: seen)]
        simp [hax]

theorem mem_firstOccurrences {α : Type} [DecidableEq α] (a : α) (l : List α) :
    a ∈ firstOccurrences l ↔ a ∈ l := by
  rw [firstOccurrences, mem_firstOccurrencesFrom]
  simp

theorem nodup_firstOccurrencesFrom {α : Type} [DecidableEq α] (l : List α) :
    ∀ seen : List α, (firstOccurrencesFrom seen l).Nodup := by
  induction l with
  | nil => intro seen; simp [firstOccurrencesFrom]
  | cons x xs ih =>
    intro seen
    rw [firstOccurrencesFrom]
    split
    · exact ih seen
    · refine List.nodup_cons.mpr ⟨?_, ih (x :: seen)⟩
      rw [mem_firstOccurrencesFrom]
      simp

theorem nodup_firstOccurrences {α : Type} [DecidableEq α] (l : List α) :
    (firstOccurrences l).Nodup :=
  nodup_firstOccurrencesFrom l []

/-- Lexicographic ascending order on `(origin, dest)` keys, as pandas sorts a
two-level group index. -/
def routeLE (a b : String × String) : Prop :=
  a.1 < b.1 ∨ (a.1 = b.1 ∧ a.2 ≤ b.2)

instance : DecidableRel routeLE := fun a b =>
  inferInstanceAs (Decidable (a.1 < b.1 ∨ (a.1 = b.1 ∧ a.2 ≤ b.2)))

instance : IsTrans (String × String) routeLE := by
  refine ⟨fun a b c hab hbc => ?_⟩
  rcases hab with h1 | ⟨h1, h2⟩ <;> rcases hbc with h3 | ⟨h3, h4⟩
  · exact Or.inl (lt_trans h1 h3)
  · exact Or.inl (h3 ▸ h1)
  · exact Or.inl (h1 ▸ h3)
  · exact Or.inr ⟨h1.trans h3, le_trans h2 h4⟩

instance : IsTotal (String × String) routeLE := by
  refine ⟨fun a b => ?_⟩
  rcases lt_trichotomy a.1 b.1 with h | h | h
  · exact Or.inl (Or.inl h)
  · rcases le_total a.2 b.2 with h2 | h2
    · exact Or.inl (Or.inr ⟨h, h2⟩)
    · exact Or.inr (Or.inr ⟨h.symm, h2⟩)
  · exact Or.inr (Or.inl h)

/-- The rows of carrier group `k`: `df[df["name"] == k]`. -/
def carrierGroup (df : List FlightRec) (k : String) : List FlightRec :=
  df.filter (fun r => decide (r.name = k))

/-- The rows of route group `k`: `df[(df["origin"], df["dest"]) == k]`. -/
def routeGroup (df : List FlightRec) (k : String × String) : List FlightRec :=
  df.filter (fun r => decide ((r.origin, r.dest) = k))

/-- The rows of month group `m`: `df[df["month_name"] == m]`. -/
def monthGroup (df : List FlightRec) (m : String) : List FlightRec :=
  df.filter (fun r => decide (month_name r = m))

/-- The rows of hour group `h`: `df[df["hour_formatted"] == h]`. -/
def hourGroup (df : List FlightRec) (h : String) : List FlightRec :=
  df.filter (fun r => decide (hour_formatted r = h))

/-- Per-group mean of the boolean `is_delayed` column: the fraction of rows
that are delayed (pandas mean of a bool series; booleans are never NaN). -/
def delayRate (g : List FlightRec) : ℚ := (g.countP is_delayed : ℚ) / g.length

/-- One row of the `plot_carrier_performance` result frame. -/
structure CarrierRow where
  name : String
  is_delayed_mean : ℚ
  dep_delay_mean : Option ℚ
deriving DecidableEq, Repr

/-- Descending order on the mean delay rate, the `sort_values("is_delayed",
ascending=False)` key of `plot_carrier_performance`. -/
def rateDesc (a b : CarrierRow) : Prop := b.is_delayed_mean ≤ a.is_delayed_mean

instance : DecidableRel rateDesc := fun a b =>
  inferInstanceAs (Decidable (b.is_delayed_mean ≤ a.is_delayed_mean))

instance : IsTrans CarrierRow rateDesc := ⟨fun _ _ _ h1 h2 => le_trans h2 h1⟩

instance : IsTotal CarrierRow rateDesc :=
  ⟨fun a b => le_total b.is_delayed_mean a.is_delayed_mean⟩

/-- The group keys of `df.groupby("name")`: the distinct carriers, sorted
ascending. -/
def carrierKeys (df : List FlightRec) : List String :=
  List.insertionSort (· ≤ ·) (firstOccurrences (df.map (·.name)))

/-- The aggregated frame `df.groupby("name").agg(mean is_delayed,
mean dep_delay)`, one row per carrier in key order. -/
def carrierStats (df : List FlightRec) : List CarrierRow :=
  (carrierKeys df).map (fun k =>
    { name := k
      is_delayed_mean := delayRate (carrierGroup df k)
      dep_delay_mean := colMean ((carrierGroup df k).map (·.dep_delay)) })

/-- `plot_carrier_performance`:
`df.groupby("name").agg(mean is_delayed, mean dep_delay)
   .sort_values("is_delayed", ascending=False)`.
`groupby` enumerates carriers in ascending key order; `sort_values` is a
stable sort on the mean delay rate, descending. -/
def plot_carrier_performance (df : List FlightRec) : List CarrierRow :=
  List.insertionSort rateDesc (carrierStats df)

/-- One row of the `plot_route_analysis` result frame. -/
structure RouteRow where
  route : String × String
  mean : Option ℚ
  count : Nat
deriving DecidableEq, Repr

/-- The order pandas `sort_values(ascending=False)` induces on a column that
may contain NaN: `optGE x y` says `x` comes no later than `y`, larger values
first and NaN last (`na_position="last"`), so NaN counts as smallest. -/
def optGE : Option ℚ → Option ℚ → Prop
  | some x, some y => y ≤ x
  | some _, none => True
  | none, some _ => False
  | none, none => True

instance : DecidableRel optGE := fun a b =>
  match a, b with
  | some x, some y => inferInstanceAs (Decidable (y ≤ x))
  | some _, none => inferInstanceAs (Decidable True)
  | none, some _ => inferInstanceAs (Decidable False)
  | none, none => inferInstanceAs (Decidable True)

theorem optGE_trans : ∀ {a b c : Option ℚ}, optGE a b → optGE b c → optGE a c
  | some _, some _, some _, h1, h2 => le_trans h2 h1
  | some _, some _, none, _, _ => trivial
  | some _, none, none, _, _ => trivial
  | none, none, none, _, _ => trivial
  | _, none, some _, _, h2 => h2.elim
  | none, some _, _, h1, _ => h1.elim

theorem optGE_total : ∀ a b : Option ℚ, optGE a b ∨ optGE b a
  | some x, some y => le_total y x
  | some _, none => Or.inl trivial
  | none, some _ => Or.inr trivial
  | none, none => Or.inl trivial

/-- Descending order on the mean delay, the `sort_values("mean",
ascending=False)` key of `plot_route_analysis`. -/
def meanDesc (a b : RouteRow) : Prop := optGE a.mean b.mean

instance : DecidableRel meanDesc := fun a b =>
  inferInstanceAs (Decidable (optGE a.mean b.mean))

instance : IsTrans RouteRow meanDesc := ⟨fun _ _ _ h1 h2 => optGE_trans h1 h2⟩

instance : IsTotal RouteRow meanDesc := ⟨fun a b => optGE_total a.mean b.mean⟩

/-- The group keys of `df.groupby(["origin", "dest"])`: the distinct route
pairs, sorted ascending. -/
def routeKeys (df : List FlightRec) : List (String × String) :=
  List.insertionSort routeLE (firstOccurrences (df.map (fun r => (r.origin, r.dest))))

/-- The aggregated frame `df.groupby(["origin", "dest"])["dep_delay"]
.agg(["mean", "count"])`, one row per route in key order.  Both aggregations
act on the `dep_delay` series, so `count` is the number of non-NaN departure
delays in the group, not the group's row count. -/
def routeStats (df : List FlightRec) : List RouteRow :=
  (routeKeys df).map (fun k =>
    { route := k
      mean := colMean ((routeGroup df k).map (·.dep_delay))
      count := colCount ((routeGroup df k).map (·.dep_delay)) })

/-- `plot_route_analysis`:
`df.groupby(["origin", "dest"])["dep_delay"].agg(["mean", "count"])
   .sort_values("mean", ascending=False).head(top_n)`. -/
def plot_route_analysis (df : List FlightRec) (top_n : Nat := 15) : List RouteRow :=
  (List.insertionSort meanDesc (routeStats df)).take top_n

/-- One row of the `plot_monthly_trends` result frame. -/
structure MonthRow where
  month : String
  dep_delay_mean : Option ℚ
  arr_delay_mean : Option ℚ
deriving DecidableEq, Repr

/-- `plot_monthly_trends`: `df.groupby("month_name").agg(mean dep_delay,
mean arr_delay).reindex(month_order)`: months that have a group keep their
aggregated row, the other months get a NaN row. -/
def plot_monthly_trends (df : List FlightRec) : List MonthRow :=
  monthOrder.map (fun m =>
    if (monthGroup df m).isEmpty then
      { month := m, dep_delay_mean := none, arr_delay_mean := none }
    else
      { month := m
        dep_delay_mean := colMean ((monthGroup df m).map (·.dep_delay))
        arr_delay_mean := colMean ((monthGroup df m).map (·.arr_delay)) })

/-- `plot_hourly_delays`: `df.groupby("hour_formatted")["dep_delay"].mean()`,
keys in ascending order. -/
def plot_hourly_delays (df : List FlightRec) : List (String × Option ℚ) :=
  (List.insertionSort (· ≤ ·) (firstOccurrences (df.map hour_formatted))).map
    (fun h => (h, colMean ((hourGroup df h).map (·.dep_delay))))

/-- The strictly positive departure delays of the (optionally carrier
filtered) data used by `plot_delay_distribution`:
`data[data["dep_delay"] > 0]["dep_delay"]` where `data` is `df` or
`df[df["name"] == carrier]`.  `NaN > 0` is `False` in pandas. -/
def delayValues (df : List FlightRec) (carrier : Option String) : List ℚ :=
  let data := match carrier with
    | none => df
    | some c => df.filter (fun r => decide (r.name = c))
  data.filterMap (fun r => r.dep_delay.bind (fun d => if 0 < d then some d else none))

/-- Equal-width histogram bucket counts over the observed range
(numpy/seaborn `histplot(..., bins=n)` semantics: `n` equal bins spanning
`[min, max]`, last bin closed on the right; a degenerate range `[v, v]` is
widened to `[v - 1/2, v + 1/2]`; empty data gives all-zero counts). -/
def histCounts (xs : List ℚ) (bins : Nat) : List Nat :=
  match xs with
  | [] => List.replicate bins 0
  | x :: _ =>
    let lo0 := xs.foldl min x
    let hi0 := xs.foldl max x
    let lo := if lo0 = hi0 then lo0 - 1/2 else lo0
    let hi := if lo0 = hi0 then hi0 + 1/2 else hi0
    let w := (hi - lo) / bins
    (List.range bins).map (fun i =>
      xs.countP (fun v =>
        decide (lo + i * w ≤ v) &&
        (if i + 1 = bins then decide (v ≤ hi) else decide (v < lo + (i + 1) * w))))

/-- `plot_delay_distribution`: the 50-bin histogram of the carrier-filtered,
strictly positive departure delays. -/
def plot_delay_distribution (df : List FlightRec) (carrier : Option String) : List Nat :=
  histCounts (delayValues df carrier) 50

/-- pandas `Series.mode().iloc[0]`: among the values of maximal frequency
(`mode` returns them sorted ascending), the first, that is the least; `none`
models the IndexError raised by `.iloc[0]` on an empty series. -/
def mode_first (xs : List String) : Option String :=
  let uniq := firstOccurrences xs
  let maxCnt := (uniq.map (fun v => xs.count v)).foldr max 0
  (uniq.filter (fun v => decide (xs.count v = maxCnt))).min?

/-- pandas `Series.idxmax` over a label/value series: the entry of maximal
value whose label comes first; `none` models the ValueError on an empty
series. -/
def idxmaxQ : List (String × ℚ) → Option (String × ℚ)
  | [] => none
  | p :: ps =>
    match idxmaxQ ps with
    | none => some p
    | some q => if q.2 > p.2 then some q else some p

/-- `df.groupby("name")["is_delayed"].mean()`: per-carrier delay rates, with
carriers in ascending key order. -/
def carrier_delay_rates (df : List FlightRec) : List (String × ℚ) :=
  (List.insertionSort (· ≤ ·) (firstOccurrences (df.map (·.name)))).map
    (fun k => (k, delayRate (carrierGroup df k)))

/-- The scalar summary produced by `generate_summary_statistics`. -/
structure Summary where
  total_flights : Nat
  avg_dep_delay : Option ℚ
  avg_arr_delay : Option ℚ
  pct_delayed : ℚ
  most_common_origin : String
  most_common_dest : String
  carrier_most_delays : String
  avg_distance : Option ℚ
deriving DecidableEq, Repr

/-- `generate_summary_statistics`.  On an empty frame `mode().iloc[0]` raises
an IndexError (and `idxmax` a ValueError), modelled by `none`; otherwise every
entry is computed from the whole frame. -/
def generate_summary_statistics (df : List FlightRec) : Option Summary :=
  match mode_first (df.map (·.origin)), mode_first (df.map (·.dest)),
        (idxmaxQ (carrier_delay_rates df)).map (·.1) with
  | some o, some d, some c =>
    some { total_flights := df.length
           avg_dep_delay := colMean (df.map (·.dep_delay))
           avg_arr_delay := colMean (df.map (·.arr_delay))
           pct_delayed := ((df.countP is_delayed : ℚ) / df.length) * 100
           most_common_origin := o
           most_common_dest := d
           carrier_most_delays := c
           avg_distance := colMean (df.map (·.distance)) }
  | _, _, _ => none

/-- The analyzer object: its only piece of state is the loaded frame
`self.df` (the seaborn palette is cosmetic and not part of the data model). -/
structure FlightAnalyzer where
  df : List FlightRec
deriving DecidableEq, Repr

/-- One reporting method invocation, with its arguments. -/
inductive ReportCall where
  | delayDistribution (carrier : Option String)
  | carrierPerformance
  | hourlyDelays
  | routeAnalysis (top_n : Nat)
  | monthlyTrends
deriving DecidableEq, Repr

/-- The numeric result of a reporting method. -/
inductive ReportResult where
  | hist (counts : List Nat)
  | carriers (rows : List CarrierRow)
  | hourly (rows : List (String × Option ℚ))
  | routes (rows : List RouteRow)
  | months (rows : List MonthRow)
deriving DecidableEq, Repr

/-- One reporting method call: it reads `self.df` and returns the numeric
result together with the analyzer as the method leaves it; no method of the
source assigns to `self.df`, so the state component is passed through. -/
def runReport (c : ReportCall) (a : FlightAnalyzer) : ReportResult × FlightAnalyzer :=
  match c with
  | .delayDistribution carrier => (.hist (plot_delay_distribution a.df carrier), a)
  | .carrierPerformance => (.carriers (plot_carrier_performance a.df), a)
  | .hourlyDelays => (.hourly (plot_hourly_delays a.df), a)
  | .routeAnalysis n => (.routes (plot_route_analysis a.df n), a)
  | .monthlyTrends => (.months (plot_monthly_trends a.df), a)

/-- Run a sequence of reporting calls, threading the analyzer state. -/
def runReports (cs : List ReportCall) (a : FlightAnalyzer) :
    List ReportResult × FlightAnalyzer :=
  match cs with
  | [] => ([], a)
  | c :: cs' =>
    let p := runReport c a
    let q := runReports cs' p.2
    (p.1 :: q.1, q.2)

/-! ### Concrete inputs used by witnesses and counterexamples -/

/-- A sample record used by the C6 witness: departure delay exactly 15. -/
def c6rec : FlightRec :=
  { name := "UA", origin := "EWR", dest := "ORD", hour := 9,
    dep_delay := some 15, arr_delay := some 0, distance := some 719, month := 2 }

/-- A sample record used by the C7 witness: both delays present. -/
def c7rec : FlightRec :=
  { name := "DL", origin := "LGA", dest := "ATL", hour := 6,
    dep_delay := some 3, arr_delay := some 4, distance := some 762, month := 0 }

/-- A sample record used by the C7 witness: missing departure delay. -/
def c7recMissing : FlightRec :=
  { name := "DL", origin := "LGA", dest := "ATL", hour := 7,
    dep_delay := none, arr_delay := some 4, distance := some 762, month := 0 }

/-- The one-record input of the C3 witness. -/
def c3df : List FlightRec :=
  [{ name := "AA", origin := "JFK", dest := "LAX", hour := 5,
     dep_delay := some 20, arr_delay := some 11, distance := some 2475, month := 0 }]

/-! ### Claim theorems -/

/-- Claim C6: in every loaded record set the derived `is_delayed` field is
true iff the record's `dep_delay` is strictly greater than 15 minutes; in
particular a record whose `dep_delay` is exactly 15 is not delayed. -/
theorem c6_is_delayed_iff_gt_15 (r : FlightRec) :
    (is_delayed r = true ↔ ∃ d, r.dep_delay = some d ∧ 15 < d) ∧
    (r.dep_delay = some 15 → is_delayed r = false) := by
  constructor
  · cases h : r.dep_delay with
    | none => simp [is_delayed, h]
    | some d => simp [is_delayed, h]
  · intro h
    simp [is_delayed, h]

/-- Witness for C6: a record with departure delay exactly 15 is not delayed. -/
theorem c6_witness : is_delayed c6rec = false :=
  (c6_is_delayed_iff_gt_15 c6rec).2 rfl

/-- Claim C7: the derived `total_delay` field equals `dep_delay + arr_delay`
when both are present, and is missing whenever either input is missing. -/
theorem c7_total_delay_sum_or_missing (r : FlightRec) :
    (∀ d a, r.dep_delay = some d → r.arr_delay = some a → total_delay r = some (d + a)) ∧
    ((r.dep_delay = none ∨ r.arr_delay = none) → total_delay r = none) := by
  constructor
  · intro d a hd ha
    simp [total_delay, hd, ha]
  · intro h
    rcases h with h | h <;> cases hd : r.dep_delay <;> cases ha : r.arr_delay <;>
      simp_all [total_delay]

/-- Witness for C7 at a record with both delays and one with a missing
departure delay. -/
theorem c7_witness :
    total_delay c7rec = some (3 + 4) ∧ total_delay c7recMissing = none :=
  ⟨(c7_total_delay_sum_or_missing c7rec).1 3 4 rfl rfl,
   (c7_total_delay_sum_or_missing c7recMissing).2 (Or.inl rfl)⟩

/-- Claim C10: on an empty record set `generate_summary_statistics` fails
(the `mode().iloc[0]` origin lookup is undefined and raises), modelled by
`none`: no partial summary of null entries is produced. -/
theorem c10_empty_summary_fails :
    generate_summary_statistics ([] : List FlightRec) = none := rfl

/-- Claim C3: a carrier filter that matches no records, or only records
without a strictly positive departure delay, makes `plot_delay_distribution`
return the all-zero 50-bucket histogram rather than fail. -/
theorem c3_empty_filter_all_zero (df : List FlightRec) (c : String)
    (h : ∀ r ∈ df, r.name = c → ∀ d, r.dep_delay = some d → d ≤ 0) :
    plot_delay_distribution df (some c) = List.replicate 50 0 := by
  have hv : delayValues df (some c) = [] := by
    rw [show delayValues df (some c)
        = (df.filter (fun r => decide (r.name = c))).filterMap
            (fun r => r.dep_delay.bind (fun d => if 0 < d then some d else none)) from rfl]
    rw [List.filterMap_eq_nil_iff]
    intro r hr
    rw [List.mem_filter] at hr
    obtain ⟨h1, h2⟩ := hr
    have hname : r.name = c := by simpa using h2
    cases hd : r.dep_delay with
    | none => simp
    | some d =>
      have hle := h r h1 hname d hd
      simp [not_lt.mpr hle]
  show histCounts (delayValues df (some c)) 50 = List.replicate 50 0
  rw [hv, histCounts]

/-- Witness for C3: a carrier absent from a one-record input gives the
all-zero histogram. -/
theorem c3_witness : plot_delay_distribution c3df (some "ZZ") = List.replicate 50 0 :=
  c3_empty_filter_all_zero c3df "ZZ" (by decide)

theorem mem_monthGroup {df : List FlightRec} {m : String} {r : FlightRec} :
    r ∈ monthGroup df m ↔ r ∈ df ∧ month_name r = m := by
  rw [monthGroup, List.mem_filter]
  simp

/-- Claim C5: `plot_monthly_trends` returns exactly 12 rows, in fixed calendar
order January through December; a month present in the input carries its
group's mean `dep_delay` and mean `arr_delay`, and a month absent from the
input appears as a null row rather than being omitted. -/
theorem c5_monthly_trends_fixed_12 (df : List FlightRec) :
    (plot_monthly_trends df).length = 12 ∧
    (plot_monthly_trends df).map (·.month) = monthOrder ∧
    (∀ row ∈ plot_monthly_trends df,
      ((∃ r ∈ df, month_name r = row.month) →
        row.dep_delay_mean = colMean ((monthGroup df row.month).map (·.dep_delay)) ∧
        row.arr_delay_mean = colMean ((monthGroup df row.month).map (·.arr_delay))) ∧
      ((∀ r ∈ df, month_name r ≠ row.month) →
        row.dep_delay_mean = none ∧ row.arr_delay_mean = none)) := by
  refine ⟨?_, ?_, ?_⟩
  · rw [plot_monthly_trends, List.length_map]
    rfl
  · rw [plot_monthly_trends, List.map_map]
    conv_rhs => rw [← List.map_id monthOrder]
    apply List.map_congr_left
    intro m _
    simp only [Function.comp_apply, List.map_id]
    split <;> rfl
  · intro row hrow
    rw [plot_monthly_trends, List.mem_map] at hrow
    obtain ⟨m, _, rfl⟩ := hrow
    by_cases hc : (monthGroup df m).isEmpty = true
    · rw [if_pos hc]
      constructor
      · rintro ⟨r, hr, hname⟩
        exfalso
        rw [List.isEmpty_iff] at hc
        have hmem : r ∈ monthGroup df m := mem_monthGroup.mpr ⟨hr, hname⟩
        rw [hc] at hmem
        exact List.not_mem_nil r hmem
      · intro _
        exact ⟨rfl, rfl⟩
    · rw [if_neg hc]
      constructor
      · intro _
        exact ⟨rfl, rfl⟩
      · intro habsent
        exfalso
        apply hc
        rw [List.isEmpty_iff, monthGroup, List.filter_eq_nil_iff]
        intro r hr
        simp only [decide_eq_true_eq]
        exact habsent r hr

/-- The one-record input of the C5 witness (a January flight). -/
def c5df : List FlightRec :=
  [{ name := "B6", origin := "JFK", dest := "BOS", hour := 8,
     dep_delay := some 20, arr_delay := some 10, distance := some 187, month := 0 }]

/-- The January row of `plot_monthly_trends c5df`, inspected by the C5
witness. -/
def c5row : MonthRow :=
  { month := "January"
    dep_delay_mean := colMean ((monthGroup c5df "January").map (·.dep_delay))
    arr_delay_mean := colMean ((monthGroup c5df "January").map (·.arr_delay)) }

/-- Witness for C5: on a one-record January input the report still has 12
rows and the January row carries the group means. -/
theorem c5_witness :
    (plot_monthly_trends c5df).length = 12 ∧
    (c5row.dep_delay_mean = colMean ((monthGroup c5df c5row.month).map (·.dep_delay)) ∧
     c5row.arr_delay_mean = colMean ((monthGroup c5df c5row.month).map (·.arr_delay))) := by
  have hmem : c5row ∈ plot_monthly_trends c5df := by
    rw [plot_monthly_trends, List.mem_map]
    refine ⟨"January", by simp [monthOrder], ?_⟩
    rw [if_neg (by decide)]
    rfl
  have hex : ∃ r ∈ c5df, month_name r = c5row.month := by
    refine ⟨c5df.head (by simp [c5df]), by simp, by decide⟩
  exact ⟨(c5_monthly_trends_fixed_12 c5df).1,
    ((c5_monthly_trends_fixed_12 c5df).2.2 c5row hmem).1 hex⟩

/-- Claim C8: every reporting method is a read-only query: it leaves the
loaded record set unchanged, and the result of each call in a sequence of
calls depends only on the initial analyzer, so repeated calls in any order
return identical results. -/
theorem c8_reports_pure (a : FlightAnalyzer) (cs : List ReportCall) :
    (runReports cs a).2 = a ∧
    (runReports cs a).1 = cs.map (fun c => (runReport c a).1) := by
  induction cs with
  | nil => exact ⟨rfl, rfl⟩
  | cons c cs' ih =>
    have hstate : (runReport c a).2 = a := by cases c <;> rfl
    constructor
    · show (runReports cs' (runReport c a).2).2 = a
      rw [hstate]
      exact ih.1
    · show (runReport c a).1 :: (runReports cs' (runReport c a).2).1 = _
      rw [hstate, List.map_cons, ih.2]

/-- Claim C9: a record with missing `dep_delay` has `is_delayed = false`, so
it counts as on-time in the delayed count (hence in the summary percentage
and in every per-carrier delay rate denominator) while being excluded from
mean `dep_delay` computations. -/
theorem c9_missing_dep_on_time (r : FlightRec) (df : List FlightRec)
    (h : r.dep_delay = none) :
    is_delayed r = false ∧
    (r :: df).countP is_delayed = df.countP is_delayed ∧
    delayRate (r :: df) = (df.countP is_delayed : ℚ) / (df.length + 1) ∧
    colMean ((r :: df).map (·.dep_delay)) = colMean (df.map (·.dep_delay)) := by
  have hfalse : is_delayed r = false := by simp [is_delayed, h]
  have hcount : (r :: df).countP is_delayed = df.countP is_delayed := by
    rw [List.countP_cons, hfalse]
    simp
  refine ⟨hfalse, hcount, ?_, ?_⟩
  · rw [delayRate, hcount, List.length_cons]
    push_cast
    rfl
  · rw [List.map_cons, h, colMean, colMean, List.filterMap_cons]
    rfl

/-- The record with missing departure delay used by the C9 witness. -/
def c9rec : FlightRec :=
  { name := "WN", origin := "MDW", dest := "DAL", hour := 11,
    dep_delay := none, arr_delay := some 2, distance := some 793, month := 5 }

/-- The one-record rest of the frame used by the C9 witness. -/
def c9df : List FlightRec :=
  [{ name := "WN", origin := "MDW", dest := "DAL", hour := 12,
     dep_delay := some 30, arr_delay := some 25, distance := some 793, month := 5 }]

/-- Witness for C9 at a concrete record with missing departure delay. -/
theorem c9_witness :
    is_delayed c9rec = false ∧
    colMean ((c9rec :: c9df).map (·.dep_delay)) = colMean (c9df.map (·.dep_delay)) :=
  ⟨(c9_missing_dep_on_time c9rec c9df rfl).1,
   (c9_missing_dep_on_time c9rec c9df rfl).2.2.2⟩

/-- Claim C4 (amended): `plot_route_analysis` returns at most `top_n` rows,
each row carrying the mean `dep_delay` and the count of non-missing
`dep_delay` values of its `(origin, dest)` group (pandas `count` on the
`dep_delay` series skips NaN, so this is not the group's record count),
sorted by non-increasing mean delay (`meanDesc`, the NaN-last descending
order of `sort_values`), and every returned row's mean is at least every
non-returned group's mean in that order. -/
theorem c4_route_analysis_top_n (df : List FlightRec) (n : Nat) :
    (plot_route_analysis df n).length ≤ n ∧
    (∀ row ∈ plot_route_analysis df n,
      row.mean = colMean ((routeGroup df row.route).map (·.dep_delay)) ∧
      row.count = colCount ((routeGroup df row.route).map (·.dep_delay))) ∧
    (plot_route_analysis df n).Pairwise meanDesc ∧
    (∀ row ∈ plot_route_analysis df n,
      ∀ k ∈ df.map (fun r => (r.origin, r.dest)),
        (∀ row' ∈ plot_route_analysis df n, row'.route ≠ k) →
        optGE row.mean (colMean ((routeGroup df k).map (·.dep_delay)))) := by
  have hsorted : (List.insertionSort meanDesc (routeStats df)).Pairwise meanDesc :=
    List.sorted_insertionSort meanDesc (routeStats df)
  have hmem_stats : ∀ row ∈ plot_route_analysis df n, row ∈ routeStats df := by
    intro row hrow
    exact (List.mem_insertionSort meanDesc).mp
      (List.take_subset n _ hrow)
  refine ⟨List.length_take_le n _, ?_, ?_, ?_⟩
  · intro row hrow
    obtain ⟨k, _, rfl⟩ := List.mem_map.mp (hmem_stats row hrow)
    exact ⟨rfl, rfl⟩
  · exact hsorted.sublist (List.take_sublist n _)
  · intro row hrow k hk hne
    have hkkeys : k ∈ routeKeys df := by
      rw [routeKeys, List.mem_insertionSort, mem_firstOccurrences]
      exact hk
    have hstat : ({ route := k
                    mean := colMean ((routeGroup df k).map (·.dep_delay))
                    count := colCount ((routeGroup df k).map (·.dep_delay)) } : RouteRow)
        ∈ List.insertionSort meanDesc (routeStats df) := by
      rw [List.mem_insertionSort, routeStats]
      exact List.mem_map.mpr ⟨k, hkkeys, rfl⟩
    have hnottake : ({ route := k
                       mean := colMean ((routeGroup df k).map (·.dep_delay))
                       count := colCount ((routeGroup df k).map (·.dep_delay)) } : RouteRow)
        ∉ plot_route_analysis df n := fun hin => hne _ hin rfl
    have hdrop : ({ route := k
                    mean := colMean ((routeGroup df k).map (·.dep_delay))
                    count := colCount ((routeGroup df k).map (·.dep_delay)) } : RouteRow)
        ∈ (List.insertionSort meanDesc (routeStats df)).drop n := by
      rcases List.mem_append.mp
        ((List.take_append_drop n (List.insertionSort meanDesc (routeStats df))) ▸ hstat)
        with h | h
      · exact absurd h hnottake
      · exact h
    exact (List.Sorted.rel_of_mem_take_of_mem_drop hsorted hrow hdrop : meanDesc _ _)

/-- The two-record, one-route input of the C4 counterexample: the second
record's `dep_delay` is missing. -/
def c4ndf : List FlightRec :=
  [{ name := "UA", origin := "BOS", dest := "ORD", hour := 7,
     dep_delay := some 30, arr_delay := some 20, distance := some 867, month := 3 },
   { name := "UA", origin := "BOS", dest := "ORD", hour := 8,
     dep_delay := none, arr_delay := some 15, distance := some 867, month := 3 }]

/-- Counterexample to C4 as stated: on `c4ndf` the single BOS-ORD group has
two records, one with missing `dep_delay`; the report's count entry is 1
(pandas `count` acts on the aggregated `dep_delay` series and skips NaN), not
the group's record count 2. -/
theorem c4_counterexample :
    (plot_route_analysis c4ndf 15).map (·.count) = [1] ∧
    (routeGroup c4ndf ("BOS", "ORD")).length = 2 ∧
    (1 : Nat) ≠ 2 := by
  refine ⟨by decide, by decide, by decide⟩

/-- The two-route input of the C4 witness. -/
def c4df : List FlightRec :=
  [{ name := "UA", origin := "BOS", dest := "ORD", hour := 7,
     dep_delay := some 30, arr_delay := some 20, distance := some 867, month := 3 },
   { name := "AA", origin := "JFK", dest := "LAX", hour := 9,
     dep_delay := some 10, arr_delay := some 5, distance := some 2475, month := 3 }]

/-- The BOS-ORD row of `routeStats c4df`. -/
def c4row : RouteRow :=
  { route := ("BOS", "ORD")
    mean := colMean ((routeGroup c4df ("BOS", "ORD")).map (·.dep_delay))
    count := colCount ((routeGroup c4df ("BOS", "ORD")).map (·.dep_delay)) }

/-- The JFK-LAX row of `routeStats c4df`. -/
def c4rowJfk : RouteRow :=
  { route := ("JFK", "LAX")
    mean := colMean ((routeGroup c4df ("JFK", "LAX")).map (·.dep_delay))
    count := colCount ((routeGroup c4df ("JFK", "LAX")).map (·.dep_delay)) }

theorem c4_route_analysis_eval : plot_route_analysis c4df 1 = [c4row] := by
  have hkeys : routeKeys c4df = [("BOS", "ORD"), ("JFK", "LAX")] := by
    simp +decide [routeKeys, firstOccurrences, firstOccurrencesFrom, c4df,
      List.insertionSort, List.orderedInsert, routeLE, String.lt_iff_toList_lt]
  have hstats : routeStats c4df = [c4row, c4rowJfk] := by
    rw [routeStats, hkeys]
    rfl
  have hm1 : colMean ((routeGroup c4df ("BOS", "ORD")).map (·.dep_delay)) = some 30 := by
    norm_num +decide [colMean, meanQ, routeGroup, c4df, List.filterMap_cons]
  have hm2 : colMean ((routeGroup c4df ("JFK", "LAX")).map (·.dep_delay)) = some 10 := by
    norm_num +decide [colMean, meanQ, routeGroup, c4df, List.filterMap_cons]
  have hrel : meanDesc c4row c4rowJfk := by
    rw [meanDesc]
    show optGE c4row.mean c4rowJfk.mean
    rw [show c4row.mean = colMean ((routeGroup c4df ("BOS", "ORD")).map (·.dep_delay)) from rfl,
        show c4rowJfk.mean = colMean ((routeGroup c4df ("JFK", "LAX")).map (·.dep_delay)) from rfl,
        hm1, hm2]
    show (10 : ℚ) ≤ 30
    norm_num
  rw [plot_route_analysis, hstats]
  rw [show List.insertionSort meanDesc [c4row, c4rowJfk]
      = List.orderedInsert meanDesc c4row [c4rowJfk] from rfl]
  rw [List.orderedInsert, if_pos hrel]
  rfl

/-- Witness for C4: on a two-route input with `top_n = 1`, the report has at
most one row and the returned BOS-ORD row's mean is at least the mean of the
non-returned JFK-LAX group. -/
theorem c4_witness :
    (plot_route_analysis c4df 1).length ≤ 1 ∧
    optGE c4row.mean (colMean ((routeGroup c4df ("JFK", "LAX")).map (·.dep_delay))) := by
  refine ⟨(c4_route_analysis_top_n c4df 1).1, ?_⟩
  refine (c4_route_analysis_top_n c4df 1).2.2.2 c4row ?_ ("JFK", "LAX") ?_ ?_
  · rw [c4_route_analysis_eval]
    exact List.mem_singleton.mpr rfl
  · simp [c4df]
  · intro row' hrow'
    rw [c4_route_analysis_eval, List.mem_singleton] at hrow'
    subst hrow'
    decide

theorem le_foldr_max (l : List Nat) : ∀ x ∈ l, x ≤ l.foldr max 0 := by
  induction l with
  | nil => simp
  | cons y ys ih =>
    intro x hx
    rcases List.mem_cons.mp hx with rfl | hx
    · exact le_max_left _ _
    · exact le_trans (ih x hx) (le_max_right _ _)

theorem foldr_max_mem (l : List Nat) (h : l ≠ []) : l.foldr max 0 ∈ l := by
  induction l with
  | nil => exact absurd rfl h
  | cons y ys ih =>
    by_cases hys : ys = []
    · subst hys
      simp
    · rw [List.foldr_cons]
      rcases max_choice y (ys.foldr max 0) with hm | hm
      · rw [hm]
        exact List.mem_cons_self _ _
      · rw [hm]
        exact List.mem_cons_of_mem _ (ih hys)

/-- Specification of `mode_first` on a non-empty series: it returns a value of
maximal frequency, and among the values sharing that maximal frequency it
returns the least one (pandas `mode()` sorts the tied values ascending and
`.iloc[0]` takes the first). -/
theorem mode_first_spec (xs : List String) (hne : xs ≠ []) :
    ∃ v, mode_first xs = some v ∧ v ∈ xs ∧
      (∀ w ∈ xs, xs.count w ≤ xs.count v) ∧
      (∀ w ∈ xs, xs.count w = xs.count v → v ≤ w) := by
  have huniq : ∀ a, a ∈ firstOccurrences xs ↔ a ∈ xs := fun a => mem_firstOccurrences a xs
  have huniq_ne : firstOccurrences xs ≠ [] := by
    cases hx : xs with
    | nil => exact absurd hx hne
    | cons y ys =>
      intro hemp
      have hymem : y ∈ firstOccurrences xs := (huniq y).mpr (hx ▸ List.mem_cons_self y ys)
      rw [hx, hemp] at hymem
      exact List.not_mem_nil y hymem
  set uniq := firstOccurrences xs with huniq_def
  set maxCnt := (uniq.map (fun v => xs.count v)).foldr max 0 with hmax_def
  have hattained : ∃ u ∈ uniq, xs.count u = maxCnt := by
    have hmapne : uniq.map (fun v => xs.count v) ≠ [] := by
      simpa using huniq_ne
    have := foldr_max_mem (uniq.map (fun v => xs.count v)) hmapne
    rw [← hmax_def] at this
    obtain ⟨u, hu, hcu⟩ := List.mem_map.mp this
    exact ⟨u, hu, hcu⟩
  obtain ⟨u, hu, hcu⟩ := hattained
  have hufilter : u ∈ uniq.filter (fun v => decide (xs.count v = maxCnt)) := by
    rw [List.mem_filter]
    exact ⟨hu, by simpa using hcu⟩
  have hfsome : (uniq.filter (fun v => decide (xs.count v = maxCnt))).min?.isSome :=
    List.isSome_min?_of_mem hufilter
  obtain ⟨v, hv⟩ := Option.isSome_iff_exists.mp hfsome
  have hvmem : v ∈ uniq.filter (fun v => decide (xs.count v = maxCnt)) :=
    List.min?_mem (fun a b => min_choice a b) hv
  have hvle : ∀ w ∈ uniq.filter (fun v => decide (xs.count v = maxCnt)), v ≤ w := by
    intro w hw
    exact (List.le_min?_iff (fun a b c => le_min_iff) hv).mp le_rfl w hw
  rw [List.mem_filter] at hvmem
  obtain ⟨hvuniq, hvcnt⟩ := hvmem
  have hvcnt' : xs.count v = maxCnt := by simpa using hvcnt
  refine ⟨v, ?_, (huniq v).mp hvuniq, ?_, ?_⟩
  · rw [mode_first]
    exact hv
  · intro w hw
    have : xs.count w ∈ uniq.map (fun v => xs.count v) :=
      List.mem_map.mpr ⟨w, (huniq w).mpr hw, rfl⟩
    rw [hvcnt']
    exact le_foldr_max _ _ this
  · intro w hw hcnt
    apply hvle
    rw [List.mem_filter]
    exact ⟨(huniq w).mpr hw, by simp [hcnt, hvcnt']⟩

theorem firstOccurrences_ne_nil {α : Type} [DecidableEq α] (l : List α) (h : l ≠ []) :
    firstOccurrences l ≠ [] := by
  cases hx : l with
  | nil => exact absurd hx h
  | cons y ys =>
    intro hemp
    have hymem : y ∈ firstOccurrences l :=
      (mem_firstOccurrences y l).mpr (hx ▸ List.mem_cons_self y ys)
    rw [hx, hemp] at hymem
    exact List.not_mem_nil y hymem

theorem idxmaxQ_cons_isSome (p : String × ℚ) (ps : List (String × ℚ)) :
    (idxmaxQ (p :: ps)).isSome := by
  rw [idxmaxQ]
  cases idxmaxQ ps with
  | none => rfl
  | some q => by_cases h : q.2 > p.2 <;> simp [h]

/-- Claim C2 (amended): for every non-empty record set the summary's
most-common-origin and most-common-destination entries are values of maximal
frequency of the origin (resp. dest) column; when several values are tied
for the highest frequency, the value returned is the least tied value in
ascending sort order (pandas `mode()` sorts), not the first-encountered
one. -/
theorem c2_most_common_least_tied (df : List FlightRec) (hne : df ≠ []) :
    ∃ s, generate_summary_statistics df = some s ∧
      (s.most_common_origin ∈ df.map (·.origin) ∧
       (∀ w ∈ df.map (·.origin),
         (df.map (·.origin)).count w ≤ (df.map (·.origin)).count s.most_common_origin) ∧
       (∀ w ∈ df.map (·.origin),
         (df.map (·.origin)).count w = (df.map (·.origin)).count s.most_common_origin →
           s.most_common_origin ≤ w)) ∧
      (s.most_common_dest ∈ df.map (·.dest) ∧
       (∀ w ∈ df.map (·.dest),
         (df.map (·.dest)).count w ≤ (df.map (·.dest)).count s.most_common_dest) ∧
       (∀ w ∈ df.map (·.dest),
         (df.map (·.dest)).count w = (df.map (·.dest)).count s.most_common_dest →
           s.most_common_dest ≤ w)) := by
  have hone : df.map (·.origin) ≠ [] := by
    intro h
    exact hne (List.map_eq_nil_iff.mp h)
  have hdne : df.map (·.dest) ≠ [] := by
    intro h
    exact hne (List.map_eq_nil_iff.mp h)
  obtain ⟨o, ho, homem, homax, hotie⟩ := mode_first_spec _ hone
  obtain ⟨d, hd, hdmem, hdmax, hdtie⟩ := mode_first_spec _ hdne
  have hck : carrier_delay_rates df ≠ [] := by
    rw [carrier_delay_rates]
    intro h
    rw [List.map_eq_nil_iff] at h
    have hlen := congrArg List.length h
    rw [List.length_insertionSort] at hlen
    exact firstOccurrences_ne_nil (df.map (·.name))
      (fun hdf => hne (List.map_eq_nil_iff.mp hdf))
      (List.length_eq_zero.mp hlen)
  obtain ⟨p, ps, hcons⟩ := List.exists_cons_of_ne_nil hck
  obtain ⟨q, hq⟩ := Option.isSome_iff_exists.mp (idxmaxQ_cons_isSome p ps)
  have hc : (idxmaxQ (carrier_delay_rates df)).map (·.1) = some q.1 := by
    rw [hcons, hq]
    rfl
  refine ⟨{ total_flights := df.length
            avg_dep_delay := colMean (df.map (·.dep_delay))
            avg_arr_delay := colMean (df.map (·.arr_delay))
            pct_delayed := ((df.countP is_delayed : ℚ) / df.length) * 100
            most_common_origin := o
            most_common_dest := d
            carrier_most_delays := q.1
            avg_distance := colMean (df.map (·.distance)) }, ?_, ?_, ?_⟩
  · simp only [generate_summary_statistics, ho, hd, hc]
  · exact ⟨homem, homax, hotie⟩
  · exact ⟨hdmem, hdmax, hdtie⟩

/-- The two-record input of the C2 counterexample and witness: the origin
column is `["B", "A"]` (a frequency tie whose first-encountered value is
`"B"`), the dest column is `["Y", "X"]`. -/
def c2df : List FlightRec :=
  [{ name := "B", origin := "B", dest := "Y", hour := 10,
     dep_delay := some 0, arr_delay := some 0, distance := some 500, month := 4 },
   { name := "A", origin := "A", dest := "X", hour := 11,
     dep_delay := some 0, arr_delay := some 0, distance := some 500, month := 4 }]

/-- The summary the analyzer produces on `c2df`. -/
def c2summary : Summary :=
  { total_flights := c2df.length
    avg_dep_delay := colMean (c2df.map (·.dep_delay))
    avg_arr_delay := colMean (c2df.map (·.arr_delay))
    pct_delayed := ((c2df.countP is_delayed : ℚ) / c2df.length) * 100
    most_common_origin := "A"
    most_common_dest := "X"
    carrier_most_delays := "A"
    avg_distance := colMean (c2df.map (·.distance)) }

theorem c2_gss_eval : generate_summary_statistics c2df = some c2summary := by
  have h1 : mode_first (c2df.map (·.origin)) = some "A" := by
    simp +decide [mode_first, firstOccurrences, firstOccurrencesFrom, c2df,
      List.min?, min_def, String.le_iff_toList_le]
  have h2 : mode_first (c2df.map (·.dest)) = some "X" := by
    simp +decide [mode_first, firstOccurrences, firstOccurrencesFrom, c2df,
      List.min?, min_def, String.le_iff_toList_le]
  have hkeys : List.insertionSort (α := String) (· ≤ ·)
      (firstOccurrences (c2df.map (·.name))) = ["A", "B"] := by
    simp +decide [firstOccurrences, firstOccurrencesFrom, c2df,
      List.insertionSort, List.orderedInsert, String.le_iff_toList_le]
  have hrA : delayRate (carrierGroup c2df "A") = 0 := by
    norm_num +decide [delayRate, carrierGroup, c2df, is_delayed,
      List.countP_cons, List.countP_nil]
  have hrB : delayRate (carrierGroup c2df "B") = 0 := by
    norm_num +decide [delayRate, carrierGroup, c2df, is_delayed,
      List.countP_cons, List.countP_nil]
  have h3 : (idxmaxQ (carrier_delay_rates c2df)).map (·.1) = some "A" := by
    rw [carrier_delay_rates, hkeys]
    rw [show (["A", "B"].map fun k => (k, delayRate (carrierGroup c2df k)))
        = [("A", delayRate (carrierGroup c2df "A")), ("B", delayRate (carrierGroup c2df "B"))]
        from rfl]
    rw [hrA, hrB]
    rw [show idxmaxQ [("A", (0 : ℚ)), ("B", (0 : ℚ))]
        = if ((("B", (0 : ℚ))).2 > (("A", (0 : ℚ))).2) then some ("B", (0 : ℚ))
          else some ("A", (0 : ℚ)) from rfl]
    rw [if_neg (lt_irrefl (0 : ℚ))]
    rfl
  simp only [generate_summary_statistics, h1, h2, h3]
  rfl

/-- Counterexample to C2 as stated: on `c2df` the origin column is
`["B", "A"]`, `"A"` and `"B"` are tied for the highest frequency and the
first-encountered tied value is `"B"`, yet the summary returns `"A"`. -/
theorem c2_counterexample :
    (generate_summary_statistics c2df).map (·.most_common_origin) = some "A" ∧
    (c2df.map (·.origin)).count "A" = (c2df.map (·.origin)).count "B" ∧
    c2df.map (·.origin) = ["B", "A"] ∧
    (generate_summary_statistics c2df).map (·.most_common_origin) ≠ some "B" := by
  rw [c2_gss_eval]
  refine ⟨rfl, by decide, by decide, by decide⟩

/-- Witness for C2 (amended) on `c2df`: the summary exists and its
most-common-origin entry is a maximal-frequency origin that is no larger
than the tied value `"B"`. -/
theorem c2_witness :
    (generate_summary_statistics c2df).isSome = true ∧
    ((generate_summary_statistics c2df).map (·.most_common_origin)).getD ""
      ∈ c2df.map (·.origin) := by
  obtain ⟨s, hs, ⟨hmem, hmax, htie⟩, _⟩ :=
    c2_most_common_least_tied c2df (by simp [c2df])
  rw [hs]
  exact ⟨rfl, hmem⟩

/-- In a list that is pairwise related by an asymmetric relation, two members
related by the relation occur in that relative order: the pair is a sublist. -/
theorem pair_sublist_of_pairwise {α : Type} {R : α → α → Prop}
    (hasymm : ∀ x y, R x y → ¬ R y x) :
    ∀ {l : List α}, l.Pairwise R → ∀ {a b : α}, a ∈ l → b ∈ l → R a b → List.Sublist [a, b] l := by
  intro l
  induction l with
  | nil =>
    intro _ a b ha
    exact absurd ha (List.not_mem_nil a)
  | cons x xs ih =>
    intro hp a b ha hb hr
    rw [List.pairwise_cons] at hp
    obtain ⟨hx, hxs⟩ := hp
    rcases List.mem_cons.mp ha with h1 | h1
    · subst h1
      rcases List.mem_cons.mp hb with h2 | h2
      · subst h2
        exact absurd hr (hasymm _ _ hr)
      · exact (List.singleton_sublist.mpr h2).cons₂ _
    · rcases List.mem_cons.mp hb with h2 | h2
      · subst h2
        exact absurd hr (hasymm _ _ (hx a h1))
      · exact (ih hxs h1 h2 hr).cons _

/-- In a duplicate-free list a pair cannot be a sublist in both orders unless
its two members are equal. -/
theorem pair_sublist_antisymm {α : Type} :
    ∀ {l : List α}, l.Nodup → ∀ {a b : α}, List.Sublist [a, b] l → List.Sublist [b, a] l → a = b := by
  intro l
  induction l with
  | nil =>
    intro _ a b h
    simp at h
  | cons x xs ih =>
    intro hnd a b hab hba
    rw [List.nodup_cons] at hnd
    obtain ⟨hx, hnd'⟩ := hnd
    cases hab with
    | cons _ h1 =>
      cases hba with
      | cons _ h2 => exact ih hnd' h1 h2
      | cons₂ _ h2 =>
        exfalso
        exact hx (h1.subset (by simp))
    | cons₂ _ h1 =>
      cases hba with
      | cons _ h2 =>
        exfalso
        exact hx (h2.subset (by simp))
      | cons₂ _ h2 => rfl

/-- Claim C1 (amended): `plot_carrier_performance` returns one row per
carrier, carrying that carrier's mean `is_delayed` (delay rate) and mean
`dep_delay`, ordered by non-increasing delay rate; carriers whose delay rates
are exactly equal appear in ascending alphabetical order of carrier name (the
sorted `groupby` key order), not in input first-appearance order. -/
theorem c1_carrier_performance_sorted (df : List FlightRec) :
    ((plot_carrier_performance df).map (·.name)).Perm
      (firstOccurrences (df.map (·.name))) ∧
    (∀ row ∈ plot_carrier_performance df,
      row.is_delayed_mean = delayRate (carrierGroup df row.name) ∧
      row.dep_delay_mean = colMean ((carrierGroup df row.name).map (·.dep_delay))) ∧
    (plot_carrier_performance df).Pairwise (fun a b =>
      b.is_delayed_mean < a.is_delayed_mean ∨
      (a.is_delayed_mean = b.is_delayed_mean ∧ a.name < b.name)) := by
  have hperm : List.Perm (plot_carrier_performance df) (carrierStats df) :=
    List.perm_insertionSort rateDesc (carrierStats df)
  have hkeys_le : (carrierKeys df).Pairwise (· ≤ ·) := by
    rw [carrierKeys]
    exact List.sorted_insertionSort _ _
  have hkeys_nodup : (carrierKeys df).Nodup := by
    rw [carrierKeys]
    exact ((List.perm_insertionSort _ _).nodup_iff).mpr
      (nodup_firstOccurrences (df.map (·.name)))
  have hkeys_lt : (carrierKeys df).Pairwise (· < ·) :=
    (hkeys_le.and hkeys_nodup).imp (fun h => lt_of_le_of_ne h.1 h.2)
  have hstats_name_lt : (carrierStats df).Pairwise (fun a b => a.name < b.name) := by
    rw [carrierStats, List.pairwise_map]
    exact hkeys_lt
  have hstats_nodup : (carrierStats df).Nodup := by
    rw [carrierStats]
    refine List.Nodup.map ?_ hkeys_nodup
    intro k1 k2 h
    exact congrArg CarrierRow.name h
  have hO_sorted : (plot_carrier_performance df).Pairwise rateDesc :=
    List.sorted_insertionSort rateDesc (carrierStats df)
  have hO_nodup : (plot_carrier_performance df).Nodup :=
    (hperm.nodup_iff).mpr hstats_nodup
  refine ⟨?_, ?_, ?_⟩
  · have p2 := hperm.map (fun r : CarrierRow => r.name)
    have e : (carrierStats df).map (·.name) = carrierKeys df := by
      rw [carrierStats, List.map_map]
      exact List.map_id _
    rw [e] at p2
    exact p2.trans (List.perm_insertionSort _ _)
  · intro row hrow
    have hmem : row ∈ carrierStats df := hperm.subset hrow
    rw [carrierStats] at hmem
    obtain ⟨k, hk, rfl⟩ := List.mem_map.mp hmem
    exact ⟨rfl, rfl⟩
  · rw [List.pairwise_iff_forall_sublist]
    intro a b hab
    have hle : rateDesc a b := List.pairwise_iff_forall_sublist.mp hO_sorted hab
    by_cases heq : a.is_delayed_mean = b.is_delayed_mean
    · right
      refine ⟨heq, ?_⟩
      have hamem : a ∈ carrierStats df := hperm.subset (hab.subset (by simp))
      have hbmem : b ∈ carrierStats df := hperm.subset (hab.subset (by simp))
      have hne_ab : a ≠ b := by
        have h2 := List.Nodup.sublist hab hO_nodup
        rw [List.nodup_cons] at h2
        intro h
        exact h2.1 (h ▸ List.mem_cons_self b [])
      have htot := List.Pairwise.forall
        (R := fun x y : CarrierRow => x.name < y.name ∨ y.name < x.name)
        (fun x y h => h.symm) (hstats_name_lt.imp (fun h => Or.inl h))
        hamem hbmem hne_ab
      rcases htot with h | h
      · exact h
      · exfalso
        have hba_stats := pair_sublist_of_pairwise
          (R := fun x y : CarrierRow => x.name < y.name)
          (fun x y hxy hyx => absurd hxy (lt_asymm hyx))
          hstats_name_lt hbmem hamem h
        have hba_O := List.pair_sublist_insertionSort (r := rateDesc)
          (le_of_eq heq) hba_stats
        exact hne_ab (pair_sublist_antisymm hO_nodup hab hba_O)
    · left
      exact lt_of_le_of_ne hle (fun h => heq h.symm)

/-- The two-record input of the C1 counterexample and witness: carrier `"B"`
appears first in the input, carrier `"A"` second, and both have delay rate 0
(an exact tie). -/
def c1df : List FlightRec :=
  [{ name := "B", origin := "JFK", dest := "LAX", hour := 5,
     dep_delay := some 0, arr_delay := some 0, distance := some 2475, month := 0 },
   { name := "A", origin := "JFK", dest := "LAX", hour := 6,
     dep_delay := some 0, arr_delay := some 0, distance := some 2475, month := 0 }]

/-- The carrier-`"A"` row of `carrierStats c1df`. -/
def c1rowA : CarrierRow :=
  { name := "A"
    is_delayed_mean := delayRate (carrierGroup c1df "A")
    dep_delay_mean := colMean ((carrierGroup c1df "A").map (·.dep_delay)) }

/-- The carrier-`"B"` row of `carrierStats c1df`. -/
def c1rowB : CarrierRow :=
  { name := "B"
    is_delayed_mean := delayRate (carrierGroup c1df "B")
    dep_delay_mean := colMean ((carrierGroup c1df "B").map (·.dep_delay)) }

theorem c1_rate_eval :
    delayRate (carrierGroup c1df "A") = 0 ∧ delayRate (carrierGroup c1df "B") = 0 := by
  constructor <;>
    norm_num +decide [delayRate, carrierGroup, c1df, is_delayed,
      List.countP_cons, List.countP_nil]

theorem c1_eval : plot_carrier_performance c1df = [c1rowA, c1rowB] := by
  have hkeys : carrierKeys c1df = ["A", "B"] := by
    simp +decide [carrierKeys, firstOccurrences, firstOccurrencesFrom, c1df,
      List.insertionSort, List.orderedInsert, String.le_iff_toList_le]
  have hstats : carrierStats c1df = [c1rowA, c1rowB] := by
    rw [carrierStats, hkeys]
    rfl
  have hrel : rateDesc c1rowA c1rowB := by
    rw [rateDesc]
    rw [show c1rowB.is_delayed_mean = delayRate (carrierGroup c1df "B") from rfl,
        show c1rowA.is_delayed_mean = delayRate (carrierGroup c1df "A") from rfl,
        c1_rate_eval.1, c1_rate_eval.2]
  rw [plot_carrier_performance, hstats]
  rw [show List.insertionSort rateDesc [c1rowA, c1rowB]
      = List.orderedInsert rateDesc c1rowA [c1rowB] from rfl]
  rw [List.orderedInsert, if_pos hrel]

/-- Counterexample to C1 as stated: on `c1df` the two carriers have exactly
equal delay rates, the first-appearance order of the carriers is
`["B", "A"]`, yet the report lists them as `["A", "B"]` (the sorted `groupby`
key order), not in first-appearance order. -/
theorem c1_counterexample :
    (plot_carrier_performance c1df).map (·.name) = ["A", "B"] ∧
    (plot_carrier_performance c1df).map (·.is_delayed_mean) = [0, 0] ∧
    firstOccurrences (c1df.map (·.name)) = ["B", "A"] ∧
    (plot_carrier_performance c1df).map (·.name)
      ≠ firstOccurrences (c1df.map (·.name)) := by
  have h1 : (plot_carrier_performance c1df).map (·.name) = ["A", "B"] := by
    rw [c1_eval]
    rfl
  have h3 : firstOccurrences (c1df.map (·.name)) = ["B", "A"] := by
    simp +decide [firstOccurrences, firstOccurrencesFrom, c1df]
  refine ⟨h1, ?_, h3, ?_⟩
  · rw [c1_eval]
    rw [show ([c1rowA, c1rowB].map (·.is_delayed_mean))
        = [delayRate (carrierGroup c1df "A"), delayRate (carrierGroup c1df "B")] from rfl]
    rw [c1_rate_eval.1, c1_rate_eval.2]
  · rw [h1, h3]
    decide

/-- Witness for C1 (amended) on `c1df`: the report's carriers are a
permutation of the distinct input carriers and the carrier-`"A"` row carries
its group's delay rate. -/
theorem c1_witness :
    ((plot_carrier_performance c1df).map (·.name)).Perm
      (firstOccurrences (c1df.map (·.name))) ∧
    c1rowA.is_delayed_mean = delayRate (carrierGroup c1df c1rowA.name) :=
  ⟨(c1_carrier_performance_sorted c1df).1,
   ((c1_carrier_performance_sorted c1df).2.1 c1rowA
     (by rw [c1_eval]; exact List.mem_cons_self _ _)).1⟩

end FlightTracker
